import Mathlib

/-!
Verification development for the TechGuru agent core
(`app/agent_core.py`): a shallow embedding in Lean 4 of the
model-preference resolver, the fallback/retry orchestrator, the offline
stub, the markdown-fence stripper and JSON extractor, and the
`explain_code` task template, together with theorems settling the
specification claims about them.

Python strings are modelled as Lean `String` / `List Char`.  Python
exceptions are modelled as values (`Exc`); the orchestrator, which in
Python catches every exception from the remote call, consumes an oracle
that yields either a text or an exception per (model, attempt).  Side
effects (`time.sleep`) are recorded in an explicit trace.  All
definitions are computable so that every concrete scenario can be
evaluated inside the kernel.
-/

namespace TechGuru

/-! ### Character and string helpers (models of Python primitives) -/

/-- The left-brace character, written by code to avoid brace literals. -/
def lbrace : Char := Char.ofNat 123

/-- The right-brace character. -/
def rbrace : Char := Char.ofNat 125

/-- The backtick character. -/
def btick : Char := Char.ofNat 96

/-- The apostrophe (single-quote) character. -/
def squote : Char := Char.ofNat 39

/-- Model of Python `str.isspace` for the characters relevant here
(ASCII whitespace; the exotic Unicode space classes that Python also
strips are not producible by any input considered in this file). -/
def pyWs (c : Char) : Bool :=
  c = ' ' || c = '\t' || c = '\n' || c = '\r' || c = '\x0b' || c = '\x0c'

/-- Whitespace skipped by Python's `json` decoder (exactly these four). -/
def isJsonWs (c : Char) : Bool :=
  c = ' ' || c = '\t' || c = '\n' || c = '\r'

/-- Model of Python `str.strip()` on a character list. -/
def pyStripL (l : List Char) : List Char :=
  ((l.dropWhile pyWs).reverse.dropWhile pyWs).reverse

/-- Model of Python `str.strip()`. -/
def pyStrip (s : String) : String :=
  String.mk (pyStripL s.data)

/-- Model of Python `str.lower()` (ASCII; no input here contains the
special Unicode case foldings). -/
def pyLower (s : String) : String :=
  String.mk (s.data.map Char.toLower)

/-- Model of Python `str.replace(old, new)` where `old` and `new` are
single characters: a pointwise map. -/
def pyReplaceChar (s : String) (old new : Char) : String :=
  String.mk (s.data.map (fun c => if c = old then new else c))

/-- Does `pre` occur as a prefix of `l`? -/
def isPrefixL (pre l : List Char) : Bool :=
  match pre, l with
  | [], _ => true
  | _ :: _, [] => false
  | p :: ps, c :: cs => p = c && isPrefixL ps cs

/-- Model of Python's `needle in haystack` substring test. -/
def containsSubL (hay needle : List Char) : Bool :=
  match hay with
  | [] => isPrefixL needle []
  | _ :: cs => isPrefixL needle hay || containsSubL cs needle

/-- Model of Python's `needle in haystack` on strings. -/
def containsSub (hay needle : String) : Bool :=
  containsSubL hay.data needle.data

/-- Fuelled worker for `deleteAllL`.  The fuel only bounds the number of
steps (each step shortens the list), so any fuel at least the length of
the list gives the intended result; structural recursion on the fuel
keeps every application kernel-reducible. -/
def deleteAllF (pat : List Char) : Nat → List Char → List Char
  | 0, l => l
  | _ + 1, [] => []
  | fuel + 1, c :: cs =>
    if !pat.isEmpty && isPrefixL pat (c :: cs) then
      deleteAllF pat fuel ((c :: cs).drop pat.length)
    else
      c :: deleteAllF pat fuel cs

/-- Delete every (non-overlapping, leftmost-first) occurrence of `pat`
from `l`: model of Python `str.replace(pat, "")`. -/
def deleteAllL (pat : List Char) (l : List Char) : List Char :=
  deleteAllF pat l.length l

/-- Characters matched by the regex class `[\w+-]` used in the fence
regex (`\w` restricted to ASCII word characters, as every input here
is ASCII). -/
def fenceLangChar (c : Char) : Bool :=
  c.isAlphanum || c = '_' || c = '+' || c = '-'

/-- If `l` begins with an occurrence of the regex
```` ```[\w+-]*\n ````, return the remainder after that occurrence. -/
def fenceMatch (l : List Char) : Option (List Char) :=
  match l with
  | b1 :: b2 :: b3 :: rest =>
    if b1 = btick && b2 = btick && b3 = btick then
      match (rest.dropWhile fenceLangChar) with
      | nl :: rest2 => if nl = '\n' then some rest2 else none
      | [] => none
    else none
  | _ => none

/-- Fuelled worker for `fenceSubL` (fuel bounds the step count; every
match consumes at least four characters, so fuel equal to the length of
the list always suffices). -/
def fenceSubF : Nat → List Char → List Char
  | 0, l => l
  | _ + 1, [] => []
  | fuel + 1, c :: cs =>
    match fenceMatch (c :: cs) with
    | some rest => fenceSubF fuel rest
    | none => c :: fenceSubF fuel cs

/-- Model of `re.sub(r"```(?:[\w+-]*)\n", "", text)`: scan left to
right, deleting each match and resuming after it. -/
def fenceSubL (l : List Char) : List Char :=
  fenceSubF l.length l

/-! ### Model of Python `json.loads` (strict mode, as used by the repo)

JSON values.  Numeric literals keep their source token (the claims never
compare numbers written differently, so the token identifies the value);
`NaN` / `Infinity` / `-Infinity`, accepted by Python by default, are kept
as tokens too.  Objects keep their fields in parse order; no input in
this development has duplicate keys, so the assoc list coincides with the
Python dict.  Lone surrogate escapes (legal for Python, unrepresentable
in a Lean `String`) are not modelled; no claim exercises them. -/
inductive J where
  | null
  | bool (b : Bool)
  | num (tok : String)
  | str (s : String)
  | arr (elems : List J)
  | obj (fields : List (String × J))

/-- Hex digit value, if `c` is one. -/
def hexVal? (c : Char) : Option Nat :=
  if c.isDigit then some (c.toNat - 48)
  else if 'a' ≤ c && c ≤ 'f' then some (c.toNat - 87)
  else if 'A' ≤ c && c ≤ 'F' then some (c.toNat - 55)
  else none

/-- Value of a four-hex-digit group, if all four are hex digits. -/
def hex4? (a b c d : Char) : Option Nat :=
  match hexVal? a, hexVal? b, hexVal? c, hexVal? d with
  | some x, some y, some z, some w => some (((x * 16 + y) * 16 + z) * 16 + w)
  | _, _, _, _ => none

/-- Single-character escapes of the JSON grammar. -/
def escChar? (c : Char) : Option Char :=
  if c = '"' then some '"'
  else if c = '\\' then some '\\'
  else if c = '/' then some '/'
  else if c = 'b' then some '\x08'
  else if c = 'f' then some '\x0c'
  else if c = 'n' then some '\n'
  else if c = 'r' then some '\r'
  else if c = 't' then some '\t'
  else none

/-- Body of a JSON string literal, starting just after the opening
quote: returns the decoded characters and the remainder after the
closing quote.  Mirrors Python `py_scanstring` in strict mode: raw
control characters below 0x20 are rejected, `\uXXXX` escapes are
decoded with surrogate-pair joining. -/
def parseStrBody : List Char → Option (List Char × List Char)
  | [] => none
  | c :: rest =>
    if c = '"' then some ([], rest)
    else if c = '\\' then
      match rest with
      | [] => none
      | e :: rest2 =>
        if e = 'u' then
          match rest2 with
          | a :: b :: c2 :: d :: rest3 =>
            match hex4? a b c2 d with
            | none => none
            | some n =>
              if 0xD800 ≤ n && n ≤ 0xDBFF then
                match rest3 with
                | b1 :: u2 :: a2 :: b2 :: c3 :: d2 :: rest4 =>
                  if b1 = '\\' && u2 = 'u' then
                    match hex4? a2 b2 c3 d2 with
                    | some m =>
                      if 0xDC00 ≤ m && m ≤ 0xDFFF then
                        (parseStrBody rest4).map (fun p =>
                          (Char.ofNat (0x10000 + (n - 0xD800) * 1024 + (m - 0xDC00)) :: p.1, p.2))
                      else none
                    | none => none
                  else none
                | _ => none
              else if 0xDC00 ≤ n && n ≤ 0xDFFF then none
              else (parseStrBody rest3).map (fun p => (Char.ofNat n :: p.1, p.2))
          | _ => none
        else
          match escChar? e with
          | some ec => (parseStrBody rest2).map (fun p => (ec :: p.1, p.2))
          | none => none
    else if c.toNat < 32 then none
    else (parseStrBody rest).map (fun p => (c :: p.1, p.2))

/-- Longest digit prefix and the remainder. -/
def spanDigits (l : List Char) : List Char × List Char :=
  (l.takeWhile Char.isDigit, l.dropWhile Char.isDigit)

/-- Integer part of the JSON number grammar `-?(0|[1-9]\d*)` (sign
handled by the caller): a lone `0` or a nonzero digit followed by
digits. -/
def parseIntDigits : List Char → Option (List Char × List Char)
  | [] => none
  | c :: rest =>
    if c = '0' then some (['0'], rest)
    else if c.isDigit then
      some (c :: (spanDigits rest).1, (spanDigits rest).2)
    else none

/-- Optional fraction part `(\.\d+)?`: consumed token (possibly empty)
and remainder. -/
def parseFrac : List Char → List Char × List Char
  | '.' :: c :: rest =>
    if c.isDigit then ('.' :: c :: (spanDigits rest).1, (spanDigits rest).2)
    else ([], '.' :: c :: rest)
  | l => ([], l)

/-- Optional exponent part `([eE][-+]?\d+)?`. -/
def parseExp (l : List Char) : List Char × List Char :=
  match l with
  | e :: rest =>
    if e = 'e' || e = 'E' then
      match rest with
      | s :: r =>
        if s = '+' || s = '-' then
          match r with
          | c :: r2 =>
            if c.isDigit then (e :: s :: c :: (spanDigits r2).1, (spanDigits r2).2)
            else ([], l)
          | [] => ([], l)
        else if s.isDigit then (e :: s :: (spanDigits r).1, (spanDigits r).2)
        else ([], l)
      | [] => ([], l)
    else ([], l)
  | [] => ([], [])

/-- The number token at the head of `l`, per Python's `NUMBER_RE`. -/
def parseNumTok (l : List Char) : Option (List Char × List Char) :=
  match l with
  | '-' :: rest =>
    match parseIntDigits rest with
    | some (ds, r) =>
      some ('-' :: ds ++ (parseFrac r).1 ++ (parseExp (parseFrac r).2).1,
            (parseExp (parseFrac r).2).2)
    | none => none
  | _ =>
    match parseIntDigits l with
    | some (ds, r) =>
      some (ds ++ (parseFrac r).1 ++ (parseExp (parseFrac r).2).1,
            (parseExp (parseFrac r).2).2)
    | none => none

/-- Parser mode: a value, the members of an object (after the opening
brace, positioned at a key), or the items of an array (positioned at a
value).  One fuelled function instead of a mutual block keeps the
recursion structural, hence kernel-reducible. -/
inductive PMode where
  | val
  | members (acc : List (String × J))
  | items (acc : List J)

/-- Recursive core of the decoder, mirroring Python's `scan_once` /
`JSONObject` / `JSONArray`.  The fuel only bounds the recursion depth;
`loads` supplies more fuel than any input can consume. -/
def parseF : Nat → PMode → List Char → Option (J × List Char)
  | 0, _, _ => none
  | fuel + 1, PMode.val, l =>
    match l with
    | [] => none
    | c :: rest =>
      if c = lbrace then
        match rest.dropWhile isJsonWs with
        | c1 :: r1 =>
          if c1 = rbrace then some (J.obj [], r1)
          else parseF fuel (PMode.members []) (c1 :: r1)
        | [] => none
      else if c = '[' then
        match rest.dropWhile isJsonWs with
        | c1 :: r1 =>
          if c1 = ']' then some (J.arr [], r1)
          else parseF fuel (PMode.items []) (c1 :: r1)
        | [] => none
      else if c = '"' then
        (parseStrBody rest).map (fun p => (J.str (String.mk p.1), p.2))
      else
        match c :: rest with
        | 't' :: 'r' :: 'u' :: 'e' :: r => some (J.bool true, r)
        | 'f' :: 'a' :: 'l' :: 's' :: 'e' :: r => some (J.bool false, r)
        | 'n' :: 'u' :: 'l' :: 'l' :: r => some (J.null, r)
        | 'N' :: 'a' :: 'N' :: r => some (J.num ("NaN"), r)
        | 'I' :: 'n' :: 'f' :: 'i' :: 'n' :: 'i' :: 't' :: 'y' :: r =>
          some (J.num ("Infinity"), r)
        | '-' :: 'I' :: 'n' :: 'f' :: 'i' :: 'n' :: 'i' :: 't' :: 'y' :: r =>
          some (J.num ("-Infinity"), r)
        | _ => (parseNumTok (c :: rest)).map (fun p => (J.num (String.mk p.1), p.2))
  | fuel + 1, PMode.members acc, l =>
    match l with
    | c :: rest =>
      if c = '"' then
        match parseStrBody rest with
        | some (key, r1) =>
          match r1.dropWhile isJsonWs with
          | c2 :: r2 =>
            if c2 = ':' then
              match parseF fuel PMode.val (r2.dropWhile isJsonWs) with
              | some (v, r3) =>
                match r3.dropWhile isJsonWs with
                | c3 :: r4 =>
                  if c3 = rbrace then
                    some (J.obj (acc ++ [(String.mk key, v)]), r4)
                  else if c3 = ',' then
                    parseF fuel (PMode.members (acc ++ [(String.mk key, v)]))
                      (r4.dropWhile isJsonWs)
                  else none
                | [] => none
              | none => none
            else none
          | [] => none
        | none => none
      else none
    | [] => none
  | fuel + 1, PMode.items acc, l =>
    match parseF fuel PMode.val l with
    | some (v, r1) =>
      match r1.dropWhile isJsonWs with
      | c :: r2 =>
        if c = ']' then some (J.arr (acc ++ [v]), r2)
        else if c = ',' then
          parseF fuel (PMode.items (acc ++ [v])) (r2.dropWhile isJsonWs)
        else none
      | [] => none
    | none => none

/-- Model of `json.loads` on a string: skip leading whitespace, decode
one value, require only whitespace afterwards; `none` models the raised
`JSONDecodeError`. -/
def loads (s : String) : Option J :=
  match parseF (2 * s.data.length + 2) PMode.val (s.data.dropWhile isJsonWs) with
  | some (v, r) => if r.dropWhile isJsonWs = [] then some v else none
  | none => none

example : loads (" 1 ") = some (J.num ("1")) := by rfl
example : loads ("01") = none := by rfl
example : loads ("true") = some (J.bool true) := by rfl
example : loads ("[1, 2]") = some (J.arr [J.num ("1"), J.num ("2")]) := by rfl
example : loads ("\x7b\"issues\": []\x7d") = some (J.obj [("issues", J.arr [])]) := by rfl
example : loads ("\x7b\"a\":1,\x7d") = none := by rfl
example : loads ("[1,]") = none := by rfl
example : loads ("hello") = none := by rfl
example : loads ("\"a\\u0041/\\n\"") = some (J.str ("aA/\n")) := by rfl
example : loads ("1.5e3") = some (J.num ("1.5e3")) := by rfl
example : loads ("1.") = none := by rfl
example : loads ("-Infinity") = some (J.num ("-Infinity")) := by rfl
example : loads ("\x7b \x7d") = some (J.obj []) := by rfl
example : loads ("\x7b\"a\":1 , \"b\" : 2\x7d")
    = some (J.obj [("a", J.num ("1")), ("b", J.num ("2"))]) := by rfl

/-! ### `_strip_markdown_fences` and `extract_json_from_text` -/

/-- Model of `_strip_markdown_fences` (`agent_core.py` lines 40-51):
remove each match of ```` ```[\w+-]*\n ````, then every remaining
literal ```` ``` ````, then every remaining backtick, then strip
surrounding whitespace.  (The non-`str` guard of the Python function is
outside the model: inputs are strings.) -/
def stripMarkdownFences (s : String) : String :=
  pyStrip (String.mk (deleteAllL [btick]
    (deleteAllL [btick, btick, btick] (fenceSubL s.data))))

/-- Prefix of `l` up to and including the last occurrence of `ch`
(meaningful when `ch ∈ l`). -/
def takeThroughLast (ch : Char) (l : List Char) : List Char :=
  (l.reverse.dropWhile (fun c => !(c = ch))).reverse

/-- Model of `JSON_CANDIDATE_RE.search`: the regex
`(\{[\s\S]*\}|\[[\s\S]*\])` matches at the leftmost position holding a
brace/bracket with a matching closer somewhere later, and greedily runs
to the last such closer in the remainder of the string. -/
def findCandidateL : List Char → Option (List Char)
  | [] => none
  | c :: cs =>
    if c = lbrace && cs.contains rbrace then
      some (c :: takeThroughLast rbrace cs)
    else if c = '[' && cs.contains ']' then
      some (c :: takeThroughLast ']' cs)
    else findCandidateL cs

/-- Model of `extract_json_from_text` (`agent_core.py` lines 53-88) on
string input: whole-string parse of the fence-stripped text, then the
first brace/bracket candidate, then the candidate with single quotes
replaced by double quotes; `(none, cleaned)` when nothing parses.  The
Python function catches every parse exception, so the embedding is a
total function into an option. -/
def extract_json_from_text (s : String) : Option J × String :=
  let cleaned := stripMarkdownFences s
  match loads cleaned with
  | some obj => (some obj, cleaned)
  | none =>
    match findCandidateL cleaned.data with
    | some cand =>
      match loads (String.mk cand) with
      | some obj => (some obj, String.mk cand)
      | none =>
        let alt := pyReplaceChar (String.mk cand) squote '"'
        match loads alt with
        | some obj => (some obj, alt)
        | none => (none, cleaned)
    | none => (none, cleaned)

/-- Is the value a JSON object (Python `isinstance(parsed, dict)`)? -/
def isObjJ : J → Bool
  | J.obj _ => true
  | _ => false

/-- Summary truncation of `_format_explain_response`: over 1000
characters, cut to 1000 and append the marker. -/
def truncSummary (s : String) : String :=
  if s.data.length > 1000 then String.mk (s.data.take 1000) ++ " [TRUNCATED]" else s

/-- Model of `_format_explain_response` (`agent_core.py` lines 91-107). -/
def format_explain_response (raw_text : String) : J :=
  let pr := extract_json_from_text raw_text
  let degraded :=
    let cleaned := if !pr.2.data.isEmpty then pr.2 else stripMarkdownFences raw_text
    J.obj [("summary", J.str (truncSummary (pyStrip cleaned))),
           ("raw_text", J.str cleaned)]
  match pr.1 with
  | some parsed => if isObjJ parsed then parsed else degraded
  | none => degraded

/-! ### Model preference resolver (`agent_core.py` lines 109-127, 214-218,
233-239, 250-253) -/

/-- Model of `os.getenv(name, "").strip() or None` on the raw
environment value (missing variable = empty string). -/
def envNorm (raw : String) : Option String :=
  if (pyStrip raw).data.isEmpty then none else some (pyStrip raw)

/-- The built-in default preference order. -/
def DEFAULT_PREFERRED : List String :=
  ["gemini-2.5-flash-lite", "gemini-2.0-flash"]

/-- One step of the default-appending loop: append unless present
(Python `if m not in PREFERRED_MODELS`). -/
def appendIfAbsent (acc : List String) (m : String) : List String :=
  if m ∈ acc then acc else acc ++ [m]

/-- Model of the module-level `PREFERRED_MODELS` construction as a
function of the three normalized overrides (`GOOGLE_MODEL`,
`GOOGLE_MODEL_DEEP`, `GOOGLE_MODEL_FAST`): the overrides are appended
unconditionally in that order, then each default is appended if absent,
then falsy (empty) entries are filtered out. -/
def PREFERRED_MODELS (g d f : Option String) : List String :=
  let l1 := match g with | some x => [x] | none => []
  let l2 := match d with | some x => l1 ++ [x] | none => l1
  let l3 := match f with | some x => l2 ++ [x] | none => l2
  (DEFAULT_PREFERRED.foldl appendIfAbsent l3).filter (fun m => !m.data.isEmpty)

/-- The `models = []; if OVERRIDE: models.append(OVERRIDE)` prologue of
the task templates. -/
def optSingleton : Option String → List String
  | some x => [x]
  | none => []

/-- The `if OVERRIDE and OVERRIDE not in models: models.append(...)`
step of the task templates. -/
def addIfAbsentOpt (acc : List String) : Option String → List String
  | some x => if acc.contains x then acc else acc ++ [x]
  | none => acc

/-- Per-task list of `explain_code` (lines 214-218): the deep override,
then every preferred model not already present. -/
def explainModels (d : Option String) (pref : List String) : List String :=
  let ms := optSingleton d
  ms ++ pref.filter (fun m => !(ms.contains m))

/-- Per-task list of `generate_tests` (lines 233-239): deep override,
then fast override if not already present, then the remaining preferred
models. -/
def generateTestsModels (d f : Option String) (pref : List String) : List String :=
  let ms1 := addIfAbsentOpt (optSingleton d) f
  ms1 ++ pref.filter (fun m => !(ms1.contains m))

/-- Per-task list of `bug_hunt_and_fix` (lines 250-253): textually the
same construction as the explain list. -/
def bugHuntModels (d : Option String) (pref : List String) : List String :=
  explainModels d pref

/-! ### Fallback/retry orchestrator (`agent_core.py` lines 130-197) -/

/-- A Python exception as seen by the orchestrator: its class name and
its message (`str(e)`). -/
structure Exc where
  cls : String
  msg : String

/-- Outcome of one `client.models.generate_content` invocation: the
normalized text (after the `.text`-or-`str(resp)` fallback of lines
167-172) or a raised exception. -/
inductive CallResult where
  | ok (text : String)
  | exn (e : Exc)

/-- The remote provider, as a deterministic oracle per (model name,
attempt number); the prompt is fixed by the surrounding call. -/
abbrev Oracle := String → Nat → CallResult

/-- The `"not found" / "not_supported" / "404"` test of line 177 (the
Python line repeats `"not_supported" in msg` twice; the repetition is a
no-op and is not reproduced). -/
def notFoundMsg (m : String) : Bool :=
  containsSub m ("not found") || containsSub m ("not_supported") || containsSub m ("404")

/-- The `"rate" / "quota" / "429"` test of line 181. -/
def rateMsg (m : String) : Bool :=
  containsSub m ("rate") || containsSub m ("quota") || containsSub m ("429")

/-- Model of Python `repr` on a message string (single-quoted, escaping
backslashes and single quotes; no message in this development needs the
rarer quote-selection rules). -/
def pyReprStr (s : String) : String :=
  String.mk (squote :: (s.data.map (fun c =>
    if c = squote || c = '\\' then ['\\', c] else [c])).flatten ++ [squote])

/-- Model of `repr(e)` for an exception value. -/
def pyReprExc (e : Exc) : String := e.cls ++ "(" ++ pyReprStr e.msg ++ ")"

/-- Model of `repr(last_exception)` where the variable may still be
`None`. -/
def pyReprOptExc : Option Exc → String
  | none => "None"
  | some e => pyReprExc e

/-- The fatal-TypeError return string of line 187. -/
def typeErrorText (model : String) (e : Exc) : String :=
  "[GENAI ERROR] SDK TypeError for model=" ++ model ++ ": " ++ e.msg

/-- The all-models-failed return string of line 193. -/
def allFailedText (last : Option Exc) : String :=
  "[GENAI ERROR] All model attempts failed. Last exception: " ++ pyReprOptExc last

/-- Model of `_offline_stub` (lines 195-197). -/
def offlineStub (prompt : String) : String :=
  "[FALLBACK] Simulated response (prompt head): " ++
    String.mk ((prompt.data.take 300).map (fun c => if c = '\n' then ' ' else c))

/-- One recorded invocation attempt: its 1-based number, its outcome,
and the duration of the `time.sleep` executed after it (if any). -/
structure Attempt where
  anum : Nat
  res : CallResult
  slept : Option Rat

/-- The inner `for attempt in range(1, max_attempts_per_model + 1)` loop
of lines 162-190, driven by remaining-attempt fuel.  Returns the
recorded attempts on this model, the updated `last_exception`, and
`some text` iff the loop executed a `return`. -/
def attemptLoop (oracle : Oracle) (model : String) :
    Nat → Nat → Option Exc → List Attempt × Option Exc × Option String
  | 0, _, last => ([], last, none)
  | fuel + 1, a, last =>
    match oracle model a with
    | CallResult.ok t => ([Attempt.mk a (CallResult.ok t) none], last, some t)
    | CallResult.exn e =>
      let msg := pyLower e.msg
      if notFoundMsg msg then
        ([Attempt.mk a (CallResult.exn e) none], some e, none)
      else if rateMsg msg then
        let cont := attemptLoop oracle model fuel (a + 1) (some e)
        (Attempt.mk a (CallResult.exn e) (some (min ((2 : Rat) ^ a) 8)) :: cont.1,
         cont.2.1, cont.2.2)
      else if e.cls = ("TypeError") then
        ([Attempt.mk a (CallResult.exn e) none], some e, some (typeErrorText model e))
      else
        let cont := attemptLoop oracle model fuel (a + 1) (some e)
        (Attempt.mk a (CallResult.exn e) (some ((1 : Rat) / 2)) :: cont.1,
         cont.2.1, cont.2.2)

/-- The outer `for model_name in models_to_try` loop of lines 159-193:
per-model traces, the final `last_exception`, and the returned text
(line 193's formatted error when everything is exhausted). -/
def modelLoop (oracle : Oracle) (maxA : Nat) :
    List String → Option Exc → List (String × List Attempt) × Option Exc × String
  | [], last => ([], last, allFailedText last)
  | m :: rest, last =>
    if m.data.isEmpty then modelLoop oracle maxA rest last
    else
      let tr := attemptLoop oracle m maxA 1 last
      match tr.2.2 with
      | some t => ([(m, tr.1)], tr.2.1, t)
      | none =>
        let cont := modelLoop oracle maxA rest tr.2.1
        ((m, tr.1) :: cont.1, cont.2.1, cont.2.2)

/-- Model of `_make_genai_client` (lines 130-139): `none` when the SDK
is missing, the key is absent or empty, or the constructor raised
(`ctorResult = none`). -/
def makeGenaiClient (hasGenai : Bool) (apiKey : Option String)
    (ctorResult : Option Oracle) : Option Oracle :=
  if !hasGenai then none
  else
    match apiKey with
    | none => none
    | some k => if k.data.isEmpty then none else ctorResult

/-- Model of `_call_gemini_with_fallback` (lines 142-193).  `preferred`
stands for the module global `PREFERRED_MODELS`; `short_response` is
accepted and unused exactly as in the source.  Returns the trace of
attempts, the final `last_exception`, and the returned string. -/
def callGeminiWithFallback (client : Option Oracle) (preferred : List String)
    (prompt : String) (models : Option (List String)) (short_response : Bool)
    (maxAttemptsPerModel : Nat) :
    List (String × List Attempt) × Option Exc × String :=
  match client with
  | none => ([], none, offlineStub prompt)
  | some oracle =>
    let modelsToTry := match models with
      | some l => if l.isEmpty then preferred else l
      | none => preferred
    modelLoop oracle maxAttemptsPerModel modelsToTry none

/-! ### `explain_code` task template (`agent_core.py` lines 200-224) -/

/-- The explain prompt (lines 204-213), character for character. -/
def explainPrompt (source_code lang : String) : String :=
  "You are a senior software instructor. Language: " ++ lang ++ ".\n\n" ++
  "Given the following source code, produce JSON with keys:\n" ++
  "- summary: 3-sentence high-level summary for a student\n" ++
  "- line_comments: list of objects \x7bline:int, comment:str\x7d for important lines only\n" ++
  "- complexity: time/space complexity (informal)\n" ++
  "- micro_exercises: 3 short practice problems inspired by this code (one-liners)\n\n" ++
  "Return only valid JSON.\n\n" ++
  "Source code:\n\x27\x27\x27" ++ source_code ++ "\x27\x27\x27\n"

/-- Is the numeric token zero-valued (for Python truthiness)? -/
def zeroNumTok (t : String) : Bool :=
  let body := match t.data with
    | '-' :: r => r
    | l => l
  (body.takeWhile (fun c => !(c = 'e' || c = 'E'))).all (fun c => c = '0' || c = '.')

/-- Python truthiness of a decoded JSON value (`None`, `False`, zero,
empty string/list/dict are falsy). -/
def pyTruthyJ : J → Bool
  | J.null => false
  | J.bool b => b
  | J.num t => !zeroNumTok t
  | J.str s => !s.data.isEmpty
  | J.arr l => !l.isEmpty
  | J.obj l => !l.isEmpty

/-- Model of `explain_code` (lines 200-224): build the prompt, resolve
the per-task model list, run the orchestrator, and return the parsed
object when it is a truthy dict, else the formatted fallback. -/
def explain_code (client : Option Oracle) (d : Option String) (pref : List String)
    (source_code : String) (lang : String) : J :=
  let prompt := explainPrompt source_code lang
  let models := explainModels d pref
  let out := (callGeminiWithFallback client pref prompt (some models) false 2).2.2
  let pr := extract_json_from_text out
  match pr.1 with
  | some parsed =>
    if pyTruthyJ parsed && isObjJ parsed then parsed else format_explain_response out
  | none => format_explain_response out

/-- Lookup of a key in a decoded object, with the Python dict rule that
a later duplicate overrides an earlier one. -/
def objLookup (j : J) (key : String) : Option J :=
  match j with
  | J.obj fields => (fields.reverse.find? (fun p => p.1 = key)).map Prod.snd
  | _ => none

example :
    extract_json_from_text ("```json\n\x7b\"issues\": []\x7d\n```")
      = (some (J.obj [("issues", J.arr [])]), "\x7b\"issues\": []\x7d") := by rfl
example :
    stripMarkdownFences ("```python\nx = 1\n```") = "x = 1" := by rfl
example : offlineStub ("a\nb") = "[FALLBACK] Simulated response (prompt head): a b" := by rfl

/-- Does the dict hold a `summary` key whose string value begins with
`pre`?  (Statement helper for the fallback-summary scenario.) -/
def summaryStartsWith (j : J) (pre : String) : Bool :=
  match objLookup j ("summary") with
  | some (J.str t) => isPrefixL pre.data t.data
  | _ => false

/-- The sleep recorded after an attempt whose call ended in `r`, read
off the classification chain of lines 176-190 (statement helper). -/
def sleptFor (a : Nat) (r : CallResult) : Option Rat :=
  match r with
  | CallResult.ok _ => none
  | CallResult.exn e =>
    if notFoundMsg (pyLower e.msg) then none
    else if rateMsg (pyLower e.msg) then some (min ((2 : Rat) ^ a) 8)
    else if e.cls = ("TypeError") then none
    else some ((1 : Rat) / 2)

/-- Does the classification of `r` make the inner loop proceed to the
next attempt (rate-limited or other transient), rather than break or
return?  (Statement helper.) -/
def isContinueB (r : CallResult) : Bool :=
  match r with
  | CallResult.ok _ => false
  | CallResult.exn e =>
    if notFoundMsg (pyLower e.msg) then false
    else if rateMsg (pyLower e.msg) then true
    else if e.cls = ("TypeError") then false
    else true

/-! ### Concrete oracles used by witnesses and counterexamples -/

/-- Provider that always answers with the JSON array text `[1, 2]`. -/
def oracleArr : Oracle := fun _ _ => CallResult.ok ("[1, 2]")

/-- Provider for which model `a` always raises a generic error whose
message contains the word `unsupported`, while every other model
answers. -/
def oracleUnsupported : Oracle := fun m _ =>
  if m = ("a") then CallResult.exn (Exc.mk ("RuntimeError") ("model is unsupported"))
  else CallResult.ok ("done")

/-- Provider for which model `gemini-x` always raises `404 not found`,
while every other model answers. -/
def oracle404 : Oracle := fun m _ =>
  if m = ("gemini-x") then CallResult.exn (Exc.mk ("ClientError") ("404 not found"))
  else CallResult.ok ("hi")

/-- Provider that always raises a retryable rate-limit error. -/
def oracleRate : Oracle := fun _ _ =>
  CallResult.exn (Exc.mk ("ClientError") ("429 rate limit"))

/-- Provider that always raises a `TypeError` with a message matching no
earlier classification pattern. -/
def oracleType : Oracle := fun _ _ =>
  CallResult.exn (Exc.mk ("TypeError") ("unexpected keyword argument"))

/-! ### Claim C2: totality and the `None` branch of the extractor -/

/-- C2.  `extract_json_from_text` is a total function into
`Option J × String` (the Python function catches every exception it can
raise, so "never raises" is the totality of this embedding), and
whenever the first component is `none`, the second component is exactly
the input with code fences and backticks stripped and surrounding
whitespace trimmed, i.e. `stripMarkdownFences` of the input. -/
theorem extract_none_gives_stripped_text (s : String)
    (h : (extract_json_from_text s).1 = none) :
    (extract_json_from_text s).2 = stripMarkdownFences s := by
  unfold extract_json_from_text at h ⊢
  cases hl : loads (stripMarkdownFences s) with
  | some v => simp [hl] at h
  | none =>
    simp only [hl] at h ⊢
    cases hc : findCandidateL (stripMarkdownFences s).data with
    | none => simp [hc]
    | some cand =>
      simp only [hc] at h ⊢
      cases h2 : loads (String.mk cand) with
      | some v => simp [h2] at h
      | none =>
        simp only [h2] at h ⊢
        cases h3 : loads (pyReplaceChar (String.mk cand) squote '"') with
        | some v => simp [h3] at h
        | none => simp [h3]

/-- Witness for C2 at a concrete parse-failure input. -/
theorem extract_none_gives_stripped_text_witness :
    (extract_json_from_text ("hello")).1 = none ∧
      (extract_json_from_text ("hello")).2 = stripMarkdownFences ("hello") :=
  ⟨by rfl, extract_none_gives_stripped_text ("hello") (by rfl)⟩

/-! ### Claim C4: credential-absent runs return exactly the offline stub -/

/-- C4.  Whenever no client can be constructed (no SDK, missing or empty
credential, or failing constructor), the orchestrator returns exactly the
offline stub output: the fixed marker followed by the first 300
characters of the prompt with newlines replaced by spaces.  The model is
a pure function, so the output is identical across repeated calls with
the same prompt by construction. -/
theorem offline_run_is_stub (hg : Bool) (key : Option String)
    (ctor : Option Oracle) (h : makeGenaiClient hg key ctor = none)
    (preferred : List String) (prompt : String) (models : Option (List String))
    (sr : Bool) (maxA : Nat) :
    (callGeminiWithFallback (makeGenaiClient hg key ctor) preferred prompt
        models sr maxA).2.2
      = "[FALLBACK] Simulated response (prompt head): " ++
          String.mk ((prompt.data.take 300).map
            (fun c => if c = '\n' then ' ' else c)) := by
  rw [h]
  rfl

/-- Witness for C4: absent SDK and credential, concrete prompt. -/
theorem offline_run_is_stub_witness :
    makeGenaiClient false none none = none ∧
      (callGeminiWithFallback (makeGenaiClient false none none) [] ("a\nb")
          none false 2).2.2
        = "[FALLBACK] Simulated response (prompt head): a b" := by
  constructor
  · rfl
  · rw [offline_run_is_stub false none none rfl [] ("a\nb") none false 2]
    rfl

/-! ### Helper lemmas about the extractor used by several claims -/

/-- When the extractor succeeds, its second component is a string that
itself parses (by `loads`) to the returned value. -/
theorem extract_some_loads {s : String} {v : J}
    (h : (extract_json_from_text s).1 = some v) :
    loads ((extract_json_from_text s).2) = some v := by
  unfold extract_json_from_text at h ⊢
  cases hl : loads (stripMarkdownFences s) with
  | some w => simp only [hl] at h ⊢; simpa using h
  | none =>
    simp only [hl] at h ⊢
    cases hc : findCandidateL (stripMarkdownFences s).data with
    | none => simp [hc] at h
    | some cand =>
      simp only [hc] at h ⊢
      cases h2 : loads (String.mk cand) with
      | some w => simp only [h2] at h ⊢; simpa using h
      | none =>
        simp only [h2] at h ⊢
        cases h3 : loads (pyReplaceChar (String.mk cand) squote '"') with
        | some w => simp only [h3] at h ⊢; simpa using h
        | none => simp [h3] at h

/-- `loads` never succeeds on an empty string. -/
theorem loads_some_data_ne_nil {t : String} {v : J} (h : loads t = some v) :
    t.data.isEmpty = false := by
  cases t with
  | mk l =>
    cases l with
    | nil =>
      exfalso
      have hempty : loads (String.mk []) = none := by rfl
      rw [hempty] at h
      exact Option.noConfusion h
    | cons c cs => rfl


/-- `_format_explain_response` always produces a dict. -/
theorem format_explain_is_obj (raw : String) :
    isObjJ (format_explain_response raw) = true := by
  simp only [format_explain_response]
  cases hp : (extract_json_from_text raw).1 with
  | none => rfl
  | some parsed =>
    cases hobj : isObjJ parsed with
    | true => simp [hobj]
    | false => simp only [hobj, Bool.false_eq_true, if_false]; rfl

/-- When the extracted value is not a dict, `_format_explain_response`
returns the degraded record built from the extraction's canonical
text. -/
theorem format_explain_nondict (raw : String) (v : J)
    (h : (extract_json_from_text raw).1 = some v) (hv : isObjJ v = false) :
    format_explain_response raw
      = J.obj [("summary",
            J.str (truncSummary (pyStrip (extract_json_from_text raw).2))),
          ("raw_text", J.str (extract_json_from_text raw).2)] := by
  have hne : (extract_json_from_text raw).2.data.isEmpty = false :=
    loads_some_data_ne_nil (extract_some_loads h)
  simp only [format_explain_response, h, hv, hne]
  simp

/-! ### Claim C10: `explain_code` returns a dict; non-dict parses degrade -/

/-- C10.  `explain_code` always returns a dict, and whenever the value
extracted from the orchestrator's text `out` is not a dict (e.g. a
top-level JSON array), the returned dict is the degraded record with
`summary` (stripped, truncated over 1000 characters) and `raw_text`
string keys built from the extraction's cleaned text, never the parsed
non-dict value. -/
theorem explain_returns_dict_and_degrades (client : Option Oracle)
    (d : Option String) (pref : List String) (source_code lang out : String)
    (hout : (callGeminiWithFallback client pref (explainPrompt source_code lang)
        (some (explainModels d pref)) false 2).2.2 = out) :
    isObjJ (explain_code client d pref source_code lang) = true ∧
    (∀ v, (extract_json_from_text out).1 = some v → isObjJ v = false →
      explain_code client d pref source_code lang
        = J.obj [("summary",
              J.str (truncSummary (pyStrip (extract_json_from_text out).2))),
            ("raw_text", J.str (extract_json_from_text out).2)]) := by
  constructor
  · simp only [explain_code, hout]
    cases hp : (extract_json_from_text out).1 with
    | none => exact format_explain_is_obj out
    | some parsed =>
      cases hcond : pyTruthyJ parsed && isObjJ parsed with
      | true =>
        have hsplit := hcond
        rw [Bool.and_eq_true] at hsplit
        simp only [hcond, if_true]
        exact hsplit.2
      | false =>
        simp only [hcond, Bool.false_eq_true, if_false]
        exact format_explain_is_obj out
  · intro v hv hnv
    simp only [explain_code, hout, hv, hnv, Bool.and_false, if_false]
    exact format_explain_nondict out v hv hnv

/-- Witness for C10: a provider answering `[1, 2]` (a top-level array)
makes `explain_code` return the degraded record, not the array. -/
theorem explain_returns_dict_and_degrades_witness :
    (extract_json_from_text ("[1, 2]")).1
        = some (J.arr [J.num ("1"), J.num ("2")]) ∧
      isObjJ (J.arr [J.num ("1"), J.num ("2")]) = false ∧
      explain_code (some oracleArr) none [("m")] ("x") ("python")
        = J.obj [("summary", J.str ("[1, 2]")), ("raw_text", J.str ("[1, 2]"))] := by
  refine ⟨by rfl, by rfl, ?_⟩
  have h := (explain_returns_dict_and_degrades (some oracleArr) none [("m")]
      ("x") ("python") ("[1, 2]") (by rfl)).2
      (J.arr [J.num ("1"), J.num ("2")]) (by rfl) (by rfl)
  exact h.trans (by rfl)

/-! ### Claim C9: explain task without credential -/

set_option maxRecDepth 100000 in
/-- C9.  With no client (no credential configured), the explain task on
the source `def add(a,b): return a+b` returns a dict whose `summary` key
holds a string beginning with `[FALLBACK] Simulated response`, whatever
the configured overrides and preference list are. -/
theorem explain_no_credential_summary_fallback (d : Option String)
    (pref : List String) :
    summaryStartsWith
        (explain_code none d pref ("def add(a,b): return a+b") ("python"))
        ("[FALLBACK] Simulated response") = true := by
  have hrun : callGeminiWithFallback none pref
      (explainPrompt ("def add(a,b): return a+b") ("python"))
      (some (explainModels d pref)) false 2
      = ([], none, offlineStub
          (explainPrompt ("def add(a,b): return a+b") ("python"))) := rfl
  simp only [explain_code, hrun]
  decide

/-! ### Helper lemmas for the model preference resolver -/

/-- What a present normalized override guarantees: it is the stripped
raw value and it is nonempty. -/
theorem envNorm_some {r x : String} (h : envNorm r = some x) :
    x = pyStrip r ∧ (pyStrip r).data.isEmpty = false := by
  unfold envNorm at h
  by_cases hc : (pyStrip r).data.isEmpty = true
  · rw [if_pos hc] at h
    exact Option.noConfusion h
  · rw [if_neg hc] at h
    exact ⟨(Option.some.inj h).symm, by simpa using hc⟩

/-- The head surviving a `dropWhile` fails the predicate. -/
theorem dropWhile_eq_cons_head_false {p : Char → Bool} :
    ∀ {l t : List Char} {c : Char}, l.dropWhile p = c :: t → p c = false := by
  intro l
  induction l with
  | nil => intro t c h; simp [List.dropWhile] at h
  | cons a as ih =>
    intro t c h
    rw [List.dropWhile_cons] at h
    by_cases hp : p a
    · exact ih (by simpa [hp] using h)
    · have hcons : a :: as = c :: t := by simpa [hp] using h
      injection hcons with h1 h2
      subst h1
      simpa using hp

/-- Python `strip` is idempotent. -/
theorem pyStripL_idem (l : List Char) : pyStripL (pyStripL l) = pyStripL l := by
  unfold pyStripL
  have h1 : ((l.dropWhile pyWs).reverse.dropWhile pyWs).reverse.dropWhile pyWs
      = ((l.dropWhile pyWs).reverse.dropWhile pyWs).reverse := by
    cases hrr : ((l.dropWhile pyWs).reverse.dropWhile pyWs).reverse with
    | nil => simp
    | cons c t =>
      have hsplit : List.takeWhile pyWs (l.dropWhile pyWs).reverse
            ++ List.dropWhile pyWs (l.dropWhile pyWs).reverse
          = (l.dropWhile pyWs).reverse :=
        List.takeWhile_append_dropWhile pyWs (l.dropWhile pyWs).reverse
      have hA : l.dropWhile pyWs
          = c :: (t ++ (List.takeWhile pyWs (l.dropWhile pyWs).reverse).reverse) := by
        have h2 := congrArg List.reverse hsplit
        rw [List.reverse_append, List.reverse_reverse] at h2
        rw [hrr] at h2
        simpa using h2.symm
      have hc : pyWs c = false := dropWhile_eq_cons_head_false hA
      rw [List.dropWhile_cons, hc]
      simp
  rw [h1, List.reverse_reverse, List.dropWhile_idempotent]

/-- Python `strip` is idempotent (string form). -/
theorem pyStrip_idem (s : String) : pyStrip (pyStrip s) = pyStrip s :=
  congrArg String.mk (pyStripL_idem s.data)

/-- The default-appending fold only extends its accumulator, with new
elements drawn from the appended list. -/
theorem foldl_appendIfAbsent_extends (ms : List String) :
    ∀ acc, ∃ t, List.foldl appendIfAbsent acc ms = acc ++ t ∧ ∀ x ∈ t, x ∈ ms := by
  induction ms with
  | nil => exact fun acc => ⟨[], by simp, by simp⟩
  | cons m rest ih =>
    intro acc
    rw [List.foldl_cons]
    unfold appendIfAbsent
    by_cases hm : m ∈ acc
    · rw [if_pos hm]
      obtain ⟨t, h1, h2⟩ := ih acc
      exact ⟨t, h1, fun x hx => List.mem_cons_of_mem m (h2 x hx)⟩
    · rw [if_neg hm]
      obtain ⟨t, h1, h2⟩ := ih (acc ++ [m])
      rw [List.append_assoc] at h1
      refine ⟨m :: t, by simpa using h1, ?_⟩
      intro x hx
      rcases List.mem_cons.1 hx with h | h
      · exact h ▸ List.mem_cons_self m rest
      · exact List.mem_cons_of_mem m (h2 x h)

/-- The default-appending fold preserves `Nodup`. -/
theorem nodup_foldl_appendIfAbsent (ms : List String) :
    ∀ acc, acc.Nodup → (List.foldl appendIfAbsent acc ms).Nodup := by
  induction ms with
  | nil => exact fun acc h => by simpa using h
  | cons m rest ih =>
    intro acc hacc
    rw [List.foldl_cons]
    apply ih
    unfold appendIfAbsent
    by_cases hm : m ∈ acc
    · rw [if_pos hm]
      exact hacc
    · rw [if_neg hm]
      simp [List.nodup_append, hacc, hm]

/-- A per-task list `ms ++ pref.filter (· ∉ ms)` is duplicate-free when
both pieces are. -/
theorem taskList_nodup (ms pref : List String) (h1 : ms.Nodup) (h2 : pref.Nodup) :
    (ms ++ pref.filter (fun m => !(ms.contains m))).Nodup := by
  rw [List.nodup_append]
  refine ⟨h1, h2.filter _, ?_⟩
  intro x hx hxf
  have hprop := List.of_mem_filter hxf
  simp only [Bool.not_eq_true'] at hprop
  exact absurd hx (by simpa using hprop)

/-- Membership in a per-task list comes from the override part or the
preference list. -/
theorem taskList_mem {ms pref : List String} {x : String}
    (h : x ∈ ms ++ pref.filter (fun m => !(ms.contains m))) :
    x ∈ ms ∨ x ∈ pref := by
  rcases List.mem_append.1 h with h | h
  · exact Or.inl h
  · exact Or.inr (List.mem_of_mem_filter h)

/-- Closed form of the module-level list construction. -/
theorem preferred_models_eq (g d f : Option String) :
    PREFERRED_MODELS g d f
      = (DEFAULT_PREFERRED.foldl appendIfAbsent
          (g.toList ++ d.toList ++ f.toList)).filter (fun m => !m.data.isEmpty) := by
  cases g <;> cases d <;> cases f <;> rfl

/-! ### Claim C3: the resolved candidate lists -/

/-- C3 counterexample.  With `GOOGLE_MODEL = GOOGLE_MODEL_DEEP = "x"`,
the module-level preference list is `["x", "x", ...]`: the override
values are appended without a duplicate check (only the built-in
defaults are dedup-checked), so the claimed duplicate-freeness fails. -/
theorem resolver_duplicates_counterexample :
    ¬ (PREFERRED_MODELS (envNorm ("x")) (envNorm ("x")) (envNorm (""))).Nodup := by
  decide

/-- The override prologue never holds duplicates. -/
theorem optSingleton_nodup (o : Option String) : (optSingleton o).Nodup := by
  cases o <;> simp [optSingleton]

/-- The conditional append preserves duplicate-freeness. -/
theorem addIfAbsentOpt_nodup (acc : List String) (o : Option String)
    (h : acc.Nodup) : (addIfAbsentOpt acc o).Nodup := by
  cases o with
  | none => exact h
  | some x =>
    simp only [addIfAbsentOpt]
    by_cases hc : acc.contains x = true
    · rw [if_pos hc]; exact h
    · rw [if_neg hc]
      have hx : x ∉ acc := by simpa using hc
      simp [List.nodup_append, h, hx]

/-- Membership in the override prologue. -/
theorem mem_optSingleton {o : Option String} {x : String}
    (h : x ∈ optSingleton o) : o = some x := by
  cases o with
  | none => simp [optSingleton] at h
  | some y => simp [optSingleton] at h; rw [h]

/-- Membership after the conditional append. -/
theorem mem_addIfAbsentOpt {acc : List String} {o : Option String} {x : String}
    (h : x ∈ addIfAbsentOpt acc o) : x ∈ acc ∨ o = some x := by
  cases o with
  | none => exact Or.inl h
  | some y =>
    simp only [addIfAbsentOpt] at h
    by_cases hc : acc.contains y = true
    · rw [if_pos hc] at h; exact Or.inl h
    · rw [if_neg hc] at h
      rcases List.mem_append.1 h with h' | h'
      · exact Or.inl h'
      · simp only [List.mem_singleton] at h'
        exact Or.inr (by rw [h'])

/-- C3 amended.  For every configuration of the global, deep, and fast
override values whose present normalized values are pairwise distinct,
the module-level list and each per-task list contain no duplicates; no
list ever contains a blank or whitespace-only entry (this part needs no
hypothesis); in each per-task list the deep override precedes the global
override, while in the module-level list the global override precedes
the deep override (the source appends the global override first). -/
theorem resolver_lists_amended (g d f : String)
    (hgd : envNorm g = none ∨ envNorm d = none ∨ envNorm g ≠ envNorm d)
    (hgf : envNorm g = none ∨ envNorm f = none ∨ envNorm g ≠ envNorm f)
    (hdf : envNorm d = none ∨ envNorm f = none ∨ envNorm d ≠ envNorm f) :
    (PREFERRED_MODELS (envNorm g) (envNorm d) (envNorm f)).Nodup
    ∧ (explainModels (envNorm d)
        (PREFERRED_MODELS (envNorm g) (envNorm d) (envNorm f))).Nodup
    ∧ (generateTestsModels (envNorm d) (envNorm f)
        (PREFERRED_MODELS (envNorm g) (envNorm d) (envNorm f))).Nodup
    ∧ (bugHuntModels (envNorm d)
        (PREFERRED_MODELS (envNorm g) (envNorm d) (envNorm f))).Nodup
    ∧ (∀ x ∈ PREFERRED_MODELS (envNorm g) (envNorm d) (envNorm f),
        (pyStrip x).data ≠ [])
    ∧ (∀ x ∈ explainModels (envNorm d)
        (PREFERRED_MODELS (envNorm g) (envNorm d) (envNorm f)),
        (pyStrip x).data ≠ [])
    ∧ (∀ x ∈ generateTestsModels (envNorm d) (envNorm f)
        (PREFERRED_MODELS (envNorm g) (envNorm d) (envNorm f)),
        (pyStrip x).data ≠ [])
    ∧ (∀ x ∈ bugHuntModels (envNorm d)
        (PREFERRED_MODELS (envNorm g) (envNorm d) (envNorm f)),
        (pyStrip x).data ≠ [])
    ∧ (∀ dv gv, envNorm d = some dv → envNorm g = some gv →
        (explainModels (envNorm d)
            (PREFERRED_MODELS (envNorm g) (envNorm d) (envNorm f))).indexOf dv
          < (explainModels (envNorm d)
              (PREFERRED_MODELS (envNorm g) (envNorm d) (envNorm f))).indexOf gv
        ∧ (generateTestsModels (envNorm d) (envNorm f)
            (PREFERRED_MODELS (envNorm g) (envNorm d) (envNorm f))).indexOf dv
          < (generateTestsModels (envNorm d) (envNorm f)
              (PREFERRED_MODELS (envNorm g) (envNorm d) (envNorm f))).indexOf gv
        ∧ (bugHuntModels (envNorm d)
            (PREFERRED_MODELS (envNorm g) (envNorm d) (envNorm f))).indexOf dv
          < (bugHuntModels (envNorm d)
              (PREFERRED_MODELS (envNorm g) (envNorm d) (envNorm f))).indexOf gv
        ∧ (PREFERRED_MODELS (envNorm g) (envNorm d) (envNorm f)).indexOf gv
          < (PREFERRED_MODELS (envNorm g) (envNorm d) (envNorm f)).indexOf dv) := by
  have hD : ∀ {o1 o2 : Option String} {a b : String},
      (o1 = none ∨ o2 = none ∨ o1 ≠ o2) → o1 = some a → o2 = some b → a ≠ b := by
    intro o1 o2 a b h h1 h2
    rcases h with h | h | h
    · rw [h1] at h; exact Option.noConfusion h
    · rw [h2] at h; exact Option.noConfusion h
    · intro hab; rw [h1, h2, hab] at h; exact h rfl
  have hnbG : ∀ {r x : String}, envNorm r = some x → (pyStrip x).data ≠ [] := by
    intro r x h
    obtain ⟨h1, h2⟩ := envNorm_some h
    rw [h1, pyStrip_idem]
    intro hc
    rw [hc] at h2
    simp at h2
  have htl : ∀ o : Option String, o.toList.Nodup := fun o => by cases o <;> simp
  have hdisj : ∀ (o1 o2 : Option String),
      (o1 = none ∨ o2 = none ∨ o1 ≠ o2) → o1.toList.Disjoint o2.toList := by
    intro o1 o2 h x hx1 hx2
    have e1 : o1 = some x := by simpa [Option.mem_toList, Option.mem_def] using hx1
    have e2 : o2 = some x := by simpa [Option.mem_toList, Option.mem_def] using hx2
    exact hD h e1 e2 rfl
  have hbase : ((envNorm g).toList ++ (envNorm d).toList
      ++ (envNorm f).toList).Nodup := by
    rw [List.nodup_append, List.nodup_append]
    refine ⟨⟨htl _, htl _, hdisj _ _ hgd⟩, htl _, ?_⟩
    intro x hx hxf
    rcases List.mem_append.1 hx with h | h
    · exact hdisj _ _ hgf h hxf
    · exact hdisj _ _ hdf h hxf
  obtain ⟨t0, ht0, ht0m⟩ := foldl_appendIfAbsent_extends DEFAULT_PREFERRED
    ((envNorm g).toList ++ (envNorm d).toList ++ (envNorm f).toList)
  have hpm_nodup :
      (PREFERRED_MODELS (envNorm g) (envNorm d) (envNorm f)).Nodup := by
    rw [preferred_models_eq]
    exact (nodup_foldl_appendIfAbsent _ _ hbase).filter _
  have hpm_mem : ∀ x ∈ PREFERRED_MODELS (envNorm g) (envNorm d) (envNorm f),
      envNorm g = some x ∨ envNorm d = some x ∨ envNorm f = some x
        ∨ x ∈ DEFAULT_PREFERRED := by
    intro x hx
    rw [preferred_models_eq] at hx
    have hx2 := List.mem_of_mem_filter hx
    rw [ht0] at hx2
    rcases List.mem_append.1 hx2 with h | h
    · rcases List.mem_append.1 h with h' | h'
      · rcases List.mem_append.1 h' with h'' | h''
        · exact Or.inl (by simpa [Option.mem_toList, Option.mem_def] using h'')
        · exact Or.inr (Or.inl
            (by simpa [Option.mem_toList, Option.mem_def] using h''))
      · exact Or.inr (Or.inr (Or.inl
          (by simpa [Option.mem_toList, Option.mem_def] using h')))
    · exact Or.inr (Or.inr (Or.inr (ht0m x h)))
  have hsrc_nonblank : ∀ x : String,
      (envNorm g = some x ∨ envNorm d = some x ∨ envNorm f = some x
        ∨ x ∈ DEFAULT_PREFERRED) → (pyStrip x).data ≠ [] := by
    intro x hx
    rcases hx with h | h | h | h
    · exact hnbG h
    · exact hnbG h
    · exact hnbG h
    · simp only [DEFAULT_PREFERRED, List.mem_cons, List.mem_singleton] at h
      rcases h with h | h
      · subst h; decide
      · rcases h with h | h
        · subst h; decide
        · simp at h
  have hpm_nonblank : ∀ x ∈ PREFERRED_MODELS (envNorm g) (envNorm d) (envNorm f),
      (pyStrip x).data ≠ [] :=
    fun x hx => hsrc_nonblank x (hpm_mem x hx)
  have hexpl_nodup : (explainModels (envNorm d)
      (PREFERRED_MODELS (envNorm g) (envNorm d) (envNorm f))).Nodup := by
    unfold explainModels
    exact taskList_nodup _ _ (optSingleton_nodup _) hpm_nodup
  have hgen_nodup : (generateTestsModels (envNorm d) (envNorm f)
      (PREFERRED_MODELS (envNorm g) (envNorm d) (envNorm f))).Nodup := by
    unfold generateTestsModels
    exact taskList_nodup _ _
      (addIfAbsentOpt_nodup _ _ (optSingleton_nodup _)) hpm_nodup
  have hexpl_nb : ∀ x ∈ explainModels (envNorm d)
      (PREFERRED_MODELS (envNorm g) (envNorm d) (envNorm f)),
      (pyStrip x).data ≠ [] := by
    intro x hx
    unfold explainModels at hx
    rcases taskList_mem hx with h | h
    · exact hnbG (mem_optSingleton h)
    · exact hsrc_nonblank x (hpm_mem x h)
  have hgen_nb : ∀ x ∈ generateTestsModels (envNorm d) (envNorm f)
      (PREFERRED_MODELS (envNorm g) (envNorm d) (envNorm f)),
      (pyStrip x).data ≠ [] := by
    intro x hx
    unfold generateTestsModels at hx
    rcases taskList_mem hx with h | h
    · rcases mem_addIfAbsentOpt h with h' | h'
      · exact hnbG (mem_optSingleton h')
      · exact hnbG h'
    · exact hsrc_nonblank x (hpm_mem x h)
  refine ⟨hpm_nodup, hexpl_nodup, hgen_nodup, hexpl_nodup, hpm_nonblank,
    hexpl_nb, hgen_nb, hexpl_nb, ?_⟩
  intro dv gv hdv hgv
  have hne_gd : gv ≠ dv := hD hgd hgv hdv
  have hq : ∀ {r x : String}, envNorm r = some x → (!x.data.isEmpty) = true := by
    intro r x h
    obtain ⟨h1, h2⟩ := envNorm_some h
    rw [h1]
    simp [h2]
  have hexpl_ord : (explainModels (envNorm d)
      (PREFERRED_MODELS (envNorm g) (envNorm d) (envNorm f))).indexOf dv
      < (explainModels (envNorm d)
          (PREFERRED_MODELS (envNorm g) (envNorm d) (envNorm f))).indexOf gv := by
    unfold explainModels
    rw [hdv]
    simp only [optSingleton, List.singleton_append]
    rw [List.indexOf_cons_self, List.indexOf_cons_ne _ (fun h => hne_gd h.symm)]
    omega
  have hgen_ord : (generateTestsModels (envNorm d) (envNorm f)
      (PREFERRED_MODELS (envNorm g) (envNorm d) (envNorm f))).indexOf dv
      < (generateTestsModels (envNorm d) (envNorm f)
          (PREFERRED_MODELS (envNorm g) (envNorm d) (envNorm f))).indexOf gv := by
    unfold generateTestsModels
    rw [hdv]
    simp only [optSingleton]
    cases hf : envNorm f with
    | none =>
      simp only [addIfAbsentOpt, List.singleton_append]
      rw [List.indexOf_cons_self, List.indexOf_cons_ne _ (fun h => hne_gd h.symm)]
      omega
    | some fv =>
      simp only [addIfAbsentOpt]
      by_cases hc : ([dv].contains fv) = true
      · rw [if_pos hc]
        simp only [List.singleton_append]
        rw [List.indexOf_cons_self, List.indexOf_cons_ne _ (fun h => hne_gd h.symm)]
        omega
      · rw [if_neg hc]
        have hsh : ∀ L : List String, ([dv] ++ [fv]) ++ L = dv :: fv :: L :=
          fun L => rfl
        rw [hsh, List.indexOf_cons_self,
          List.indexOf_cons_ne _ (fun h => hne_gd h.symm)]
        omega
  have hpm_ord : (PREFERRED_MODELS (envNorm g) (envNorm d) (envNorm f)).indexOf gv
      < (PREFERRED_MODELS (envNorm g) (envNorm d) (envNorm f)).indexOf dv := by
    rw [preferred_models_eq, ht0, hgv, hdv]
    have hbase_eq : ((some gv).toList ++ (some dv).toList ++ (envNorm f).toList)
        ++ t0 = gv :: dv :: ((envNorm f).toList ++ t0) := by
      simp
    rw [hbase_eq]
    rw [@List.filter_cons_of_pos _ (fun m => !m.data.isEmpty) gv _ (hq hgv),
      @List.filter_cons_of_pos _ (fun m => !m.data.isEmpty) dv _ (hq hdv)]
    rw [List.indexOf_cons_self, List.indexOf_cons_ne _ hne_gd]
    omega
  exact ⟨hexpl_ord, hgen_ord, hexpl_ord, hpm_ord⟩

/-- Witness for the amended C3 at the concrete configuration
`GOOGLE_MODEL=x`, `GOOGLE_MODEL_DEEP=y`, `GOOGLE_MODEL_FAST` unset. -/
theorem resolver_lists_amended_witness :
    (PREFERRED_MODELS (envNorm ("x")) (envNorm ("y")) (envNorm (""))).Nodup
    ∧ PREFERRED_MODELS (envNorm ("x")) (envNorm ("y")) (envNorm (""))
        = ["x", "y", "gemini-2.5-flash-lite", "gemini-2.0-flash"]
    ∧ explainModels (envNorm ("y"))
        (PREFERRED_MODELS (envNorm ("x")) (envNorm ("y")) (envNorm ("")))
        = ["y", "x", "gemini-2.5-flash-lite", "gemini-2.0-flash"] := by
  refine ⟨?_, by decide, by decide⟩
  exact (resolver_lists_amended ("x") ("y") ("")
    (by decide) (by decide) (by decide)).1

/-! ### Helper lemmas about the retry/fallback orchestrator -/

/-- The inner loop makes at most `fuel` attempts. -/
theorem attemptLoop_length_le (oracle : Oracle) (m : String) :
    ∀ (fuel a : Nat) (last : Option Exc),
      (attemptLoop oracle m fuel a last).1.length ≤ fuel := by
  intro fuel
  induction fuel with
  | zero => intro a last; simp [attemptLoop]
  | succ fuel ih =>
    intro a last
    cases hor : oracle m a with
    | ok t => simp [attemptLoop, hor]
    | exn e =>
      simp only [attemptLoop, hor]
      by_cases h1 : notFoundMsg (pyLower e.msg) = true
      · simp [h1]
      · by_cases h2 : rateMsg (pyLower e.msg) = true
        · simp only [h1, h2]
          simpa using ih (a + 1) (some e)
        · by_cases h3 : e.cls = ("TypeError")
          · simp [h1, h2, h3]
          · simp only [h1, h2, h3]
            simpa using ih (a + 1) (some e)

/-- With fuel left, the inner loop records at least one attempt. -/
theorem attemptLoop_ne_nil (oracle : Oracle) (m : String)
    (fuel a : Nat) (last : Option Exc) :
    0 < (attemptLoop oracle m (fuel + 1) a last).1.length := by
  cases hor : oracle m a with
  | ok t => simp [attemptLoop, hor]
  | exn e =>
    simp only [attemptLoop, hor]
    by_cases h1 : notFoundMsg (pyLower e.msg) = true
    · simp [h1]
    · by_cases h2 : rateMsg (pyLower e.msg) = true
      · simp [h1, h2]
      · by_cases h3 : e.cls = ("TypeError")
        · simp [h1, h2, h3]
        · simp [h1, h2, h3]

/-- Each recorded attempt is fully determined by the oracle: the `i`-th
record of a loop started at attempt number `a` carries number `a + i`,
the oracle's outcome at that number, and the sleep dictated by the
classification chain. -/
theorem attemptLoop_get? (oracle : Oracle) (m : String) :
    ∀ (fuel a : Nat) (last : Option Exc) (i : Nat) (rec : Attempt),
      (attemptLoop oracle m fuel a last).1.get? i = some rec →
      rec = Attempt.mk (a + i) (oracle m (a + i))
          (sleptFor (a + i) (oracle m (a + i))) := by
  intro fuel
  induction fuel with
  | zero => intro a last i rec hrec; simp [attemptLoop] at hrec
  | succ fuel ih =>
    intro a last i rec hrec
    cases hor : oracle m a with
    | ok t =>
      have htr : (attemptLoop oracle m (fuel + 1) a last).1
          = [Attempt.mk a (CallResult.ok t) none] := by
        simp [attemptLoop, hor]
      rw [htr] at hrec
      cases i with
      | zero =>
        have := Option.some.inj hrec
        rw [← this]
        simp [hor, sleptFor]
      | succ j => simp at hrec
    | exn e =>
      by_cases h1 : notFoundMsg (pyLower e.msg) = true
      · have htr : (attemptLoop oracle m (fuel + 1) a last).1
            = [Attempt.mk a (CallResult.exn e) none] := by
          simp [attemptLoop, hor, h1]
        rw [htr] at hrec
        cases i with
        | zero =>
          have := Option.some.inj hrec
          rw [← this]
          simp [hor, sleptFor, h1]
        | succ j => simp at hrec
      · by_cases h2 : rateMsg (pyLower e.msg) = true
        · have htr : (attemptLoop oracle m (fuel + 1) a last).1
              = Attempt.mk a (CallResult.exn e) (some (min ((2 : Rat) ^ a) 8))
                :: (attemptLoop oracle m fuel (a + 1) (some e)).1 := by
            simp [attemptLoop, hor, h1, h2]
          rw [htr] at hrec
          cases i with
          | zero =>
            have := Option.some.inj hrec
            rw [← this]
            simp [hor, sleptFor, h1, h2]
          | succ j =>
            have hj : (attemptLoop oracle m fuel (a + 1) (some e)).1.get? j
                = some rec := by simpa using hrec
            rw [ih (a + 1) (some e) j rec hj]
            have hidx : a + 1 + j = a + (j + 1) := by omega
            rw [hidx]
        · by_cases h3 : e.cls = ("TypeError")
          · have htr : (attemptLoop oracle m (fuel + 1) a last).1
                = [Attempt.mk a (CallResult.exn e) none] := by
              simp [attemptLoop, hor, h1, h2, h3]
            rw [htr] at hrec
            cases i with
            | zero =>
              have := Option.some.inj hrec
              rw [← this]
              simp [hor, sleptFor, h1, h2, h3]
            | succ j => simp at hrec
          · have htr : (attemptLoop oracle m (fuel + 1) a last).1
                = Attempt.mk a (CallResult.exn e) (some ((1 : Rat) / 2))
                  :: (attemptLoop oracle m fuel (a + 1) (some e)).1 := by
              simp [attemptLoop, hor, h1, h2, h3]
            rw [htr] at hrec
            cases i with
            | zero =>
              have := Option.some.inj hrec
              rw [← this]
              simp [hor, sleptFor, h1, h2, h3]
            | succ j =>
              have hj : (attemptLoop oracle m fuel (a + 1) (some e)).1.get? j
                  = some rec := by simpa using hrec
              rw [ih (a + 1) (some e) j rec hj]
              have hidx : a + 1 + j = a + (j + 1) := by omega
              rw [hidx]

/-- If the `i`-th attempt of a model is classified as retry (rate or
other transient) and budget remains, a further attempt on the same model
follows in the trace. -/
theorem attemptLoop_continue (oracle : Oracle) (m : String) :
    ∀ (fuel a : Nat) (last : Option Exc) (i : Nat),
      i < (attemptLoop oracle m fuel a last).1.length →
      isContinueB (oracle m (a + i)) = true →
      i + 1 < fuel →
      i + 1 < (attemptLoop oracle m fuel a last).1.length := by
  intro fuel
  induction fuel with
  | zero => intro a last i h _ _; simp [attemptLoop] at h
  | succ fuel ih =>
    intro a last i h hcont hfuel
    cases hor : oracle m a with
    | ok t =>
      have htr : (attemptLoop oracle m (fuel + 1) a last).1
          = [Attempt.mk a (CallResult.ok t) none] := by
        simp [attemptLoop, hor]
      rw [htr] at h
      cases i with
      | zero => rw [Nat.add_zero, hor] at hcont; simp [isContinueB] at hcont
      | succ j => simp at h
    | exn e =>
      by_cases h1 : notFoundMsg (pyLower e.msg) = true
      · have htr : (attemptLoop oracle m (fuel + 1) a last).1
            = [Attempt.mk a (CallResult.exn e) none] := by
          simp [attemptLoop, hor, h1]
        rw [htr] at h
        cases i with
        | zero =>
          rw [Nat.add_zero, hor] at hcont
          simp [isContinueB, h1] at hcont
        | succ j => simp at h
      · by_cases h2 : rateMsg (pyLower e.msg) = true
        · have htr : (attemptLoop oracle m (fuel + 1) a last).1
              = Attempt.mk a (CallResult.exn e) (some (min ((2 : Rat) ^ a) 8))
                :: (attemptLoop oracle m fuel (a + 1) (some e)).1 := by
            simp [attemptLoop, hor, h1, h2]
          rw [htr] at h ⊢
          cases i with
          | zero =>
            simp only [List.length_cons]
            have : 0 < (attemptLoop oracle m fuel (a + 1) (some e)).1.length := by
              cases fuel with
              | zero => omega
              | succ k => exact attemptLoop_ne_nil oracle m k (a + 1) (some e)
            omega
          | succ j =>
            simp only [List.length_cons] at h ⊢
            have hj := ih (a + 1) (some e) j (by omega)
              (by
                have : a + 1 + j = a + (j + 1) := by omega
                rw [this]
                exact hcont)
              (by omega)
            omega
        · by_cases h3 : e.cls = ("TypeError")
          · have htr : (attemptLoop oracle m (fuel + 1) a last).1
                = [Attempt.mk a (CallResult.exn e) none] := by
              simp [attemptLoop, hor, h1, h2, h3]
            rw [htr] at h
            cases i with
            | zero =>
              rw [Nat.add_zero, hor] at hcont
              simp [isContinueB, h1, h2, h3] at hcont
            | succ j => simp at h
          · have htr : (attemptLoop oracle m (fuel + 1) a last).1
                = Attempt.mk a (CallResult.exn e) (some ((1 : Rat) / 2))
                  :: (attemptLoop oracle m fuel (a + 1) (some e)).1 := by
              simp [attemptLoop, hor, h1, h2, h3]
            rw [htr] at h ⊢
            cases i with
            | zero =>
              simp only [List.length_cons]
              have : 0 < (attemptLoop oracle m fuel (a + 1) (some e)).1.length := by
                cases fuel with
                | zero => omega
                | succ k => exact attemptLoop_ne_nil oracle m k (a + 1) (some e)
              omega
            | succ j =>
              simp only [List.length_cons] at h ⊢
              have hj := ih (a + 1) (some e) j (by omega)
                (by
                  have : a + 1 + j = a + (j + 1) := by omega
                  rw [this]
                  exact hcont)
                (by omega)
              omega

/-- Every per-model entry of the outer loop's trace is an inner-loop
trace started with attempt number 1 (a fresh budget), for a non-empty
model name. -/
theorem modelLoop_mem (oracle : Oracle) (maxA : Nat) :
    ∀ (ms : List String) (last : Option Exc) (m : String) (tr : List Attempt),
      (m, tr) ∈ (modelLoop oracle maxA ms last).1 →
      (∃ last2, tr = (attemptLoop oracle m maxA 1 last2).1)
        ∧ m.data.isEmpty = false := by
  intro ms
  induction ms with
  | nil => intro last m tr h; simp [modelLoop] at h
  | cons m0 rest ih =>
    intro last m tr h
    by_cases hm0 : m0.data.isEmpty = true
    · rw [modelLoop, if_pos hm0] at h
      exact ih last m tr h
    · rw [modelLoop, if_neg hm0] at h
      cases hret : (attemptLoop oracle m0 maxA 1 last).2.2 with
      | some t =>
        simp only [hret, List.mem_singleton] at h
        have hm : m = m0 := congrArg Prod.fst h
        have htr : tr = (attemptLoop oracle m0 maxA 1 last).1 := congrArg Prod.snd h
        subst hm
        exact ⟨⟨last, htr⟩, by simpa using hm0⟩
      | none =>
        simp only [hret, List.mem_cons] at h
        rcases h with h | h
        · have hm : m = m0 := congrArg Prod.fst h
          have htr : tr = (attemptLoop oracle m0 maxA 1 last).1 := congrArg Prod.snd h
          subst hm
          exact ⟨⟨last, htr⟩, by simpa using hm0⟩
        · exact ih _ m tr h

/-! ### Claim C1: the not-found classification -/

/-- C1 counterexample.  The source (line 177) matches the substrings
`not found`, `not_supported` and `404`, not `unsupported`: a model
failing with the message `model is unsupported` is classified as an
other-transient error and retried on the same model (two attempts are
spent) instead of being abandoned immediately as the claim states. -/
theorem unsupported_message_is_retried_counterexample :
    containsSub (pyLower ("model is unsupported")) ("unsupported") = true
    ∧ (callGeminiWithFallback (some oracleUnsupported) [] ("p")
        (some [("a"), ("b")]) false 2).1.map (fun p => (p.1, p.2.length))
      = [(("a"), 2), (("b"), 1)] := by
  constructor
  · decide
  · rfl

/-- C1 amended.  For every attempt raising an error whose lowered
message contains `not found`, `not_supported` (the substring the code
actually matches, not `unsupported`), or `404`, the orchestrator
classifies it as model-unavailable: the attempt is the model's last
(one record, no sleep, no returned text regardless of remaining
budget), and the outer loop then proceeds to the next candidate; in
particular a model failing with a `404 not found` message is never
retried. -/
theorem notfound_abandons_model_immediately :
    (∀ (oracle : Oracle) (m : String) (fuel a : Nat) (last : Option Exc) (e : Exc),
      oracle m a = CallResult.exn e →
      notFoundMsg (pyLower e.msg) = true →
      attemptLoop oracle m (fuel + 1) a last
        = ([Attempt.mk a (CallResult.exn e) none], some e, none))
    ∧ (∀ (oracle : Oracle) (maxA : Nat) (m : String) (rest : List String)
        (last : Option Exc),
      m.data.isEmpty = false →
      (attemptLoop oracle m maxA 1 last).2.2 = none →
      modelLoop oracle maxA (m :: rest) last
        = ((m, (attemptLoop oracle m maxA 1 last).1)
            :: (modelLoop oracle maxA rest
              (attemptLoop oracle m maxA 1 last).2.1).1,
          (modelLoop oracle maxA rest
            (attemptLoop oracle m maxA 1 last).2.1).2.1,
          (modelLoop oracle maxA rest
            (attemptLoop oracle m maxA 1 last).2.1).2.2)) := by
  constructor
  · intro oracle m fuel a last e hor h1
    simp [attemptLoop, hor, h1]
  · intro oracle maxA m rest last hm hret
    rw [modelLoop, if_neg (by simp [hm])]
    simp only [hret]

/-- Witness for the amended C1: `gemini-x` fails with `404 not found`,
is abandoned after a single attempt, and the run succeeds on the next
candidate. -/
theorem notfound_abandons_model_immediately_witness :
    oracle404 ("gemini-x") 1
        = CallResult.exn (Exc.mk ("ClientError") ("404 not found"))
    ∧ notFoundMsg (pyLower ("404 not found")) = true
    ∧ attemptLoop oracle404 ("gemini-x") 2 1 none
        = ([Attempt.mk 1
            (CallResult.exn (Exc.mk ("ClientError") ("404 not found"))) none],
          some (Exc.mk ("ClientError") ("404 not found")), none)
    ∧ (callGeminiWithFallback (some oracle404) [] ("p")
        (some [("gemini-x"), ("m2")]) false 2).2.2 = "hi" := by
  refine ⟨by rfl, by decide, ?_, by rfl⟩
  exact (notfound_abandons_model_immediately).1 oracle404 ("gemini-x") 1 1 none
    (Exc.mk ("ClientError") ("404 not found")) (by rfl) (by decide)

/-! ### Claim C8: fatal TypeError aborts the orchestration -/

/-- C8.  An attempt failing with a `TypeError` whose lowered message
matches neither the not-found nor the rate patterns makes the inner
loop return at once the formatted error string naming the failing model
and the cause (`str(e)`), and the outer loop stops with that string:
no further attempts and no further models. -/
theorem typeerror_aborts_orchestration :
    (∀ (oracle : Oracle) (m : String) (fuel a : Nat) (last : Option Exc) (e : Exc),
      oracle m a = CallResult.exn e →
      notFoundMsg (pyLower e.msg) = false →
      rateMsg (pyLower e.msg) = false →
      e.cls = ("TypeError") →
      attemptLoop oracle m (fuel + 1) a last
        = ([Attempt.mk a (CallResult.exn e) none], some e,
          some (typeErrorText m e)))
    ∧ (∀ (oracle : Oracle) (maxA : Nat) (m : String) (rest : List String)
        (last : Option Exc) (t : String),
      m.data.isEmpty = false →
      (attemptLoop oracle m maxA 1 last).2.2 = some t →
      modelLoop oracle maxA (m :: rest) last
        = ([(m, (attemptLoop oracle m maxA 1 last).1)],
          (attemptLoop oracle m maxA 1 last).2.1, t)) := by
  constructor
  · intro oracle m fuel a last e hor h1 h2 h3
    simp [attemptLoop, hor, h1, h2, h3]
  · intro oracle maxA m rest last t hm hret
    rw [modelLoop, if_neg (by simp [hm])]
    simp only [hret]

/-- Witness for C8: a `TypeError` on the first model ends the whole run
with the formatted string; the second candidate is never tried. -/
theorem typeerror_aborts_orchestration_witness :
    oracleType ("a") 1
        = CallResult.exn (Exc.mk ("TypeError") ("unexpected keyword argument"))
    ∧ attemptLoop oracleType ("a") 2 1 none
        = ([Attempt.mk 1 (CallResult.exn
            (Exc.mk ("TypeError") ("unexpected keyword argument"))) none],
          some (Exc.mk ("TypeError") ("unexpected keyword argument")),
          some (typeErrorText ("a")
            (Exc.mk ("TypeError") ("unexpected keyword argument"))))
    ∧ (callGeminiWithFallback (some oracleType) [] ("p")
        (some [("a"), ("b")]) false 2).1.map (fun p => p.1) = [("a")]
    ∧ (callGeminiWithFallback (some oracleType) [] ("p")
        (some [("a"), ("b")]) false 2).2.2
      = typeErrorText ("a") (Exc.mk ("TypeError") ("unexpected keyword argument")) := by
  refine ⟨by rfl, ?_, by rfl, by rfl⟩
  exact (typeerror_aborts_orchestration).1 oracleType ("a") 1 1 none
    (Exc.mk ("TypeError") ("unexpected keyword argument"))
    (by rfl) (by decide) (by decide) (by rfl)

/-! ### Claim C7: rate-limit backoff and the per-model attempt budget -/

/-- C7.  In every run, each per-model trace spends at most
`max_attempts_per_model` attempts; attempt numbers start at 1 for every
model (a fresh budget per candidate); and every attempt failing with a
rate/quota/429 message (not first classified as not-found) records a
sleep of exactly `min(2^attempt, 8)` time units and, when budget
remains, is followed by a further attempt on the same model. -/
theorem rate_limit_backoff_and_budget (oracle : Oracle) (preferred : List String)
    (prompt : String) (models : Option (List String)) (sr : Bool) (maxA : Nat)
    (m : String) (tr : List Attempt)
    (hmem : (m, tr) ∈ (callGeminiWithFallback (some oracle) preferred prompt
        models sr maxA).1) :
    tr.length ≤ maxA
    ∧ (∀ i rec, tr.get? i = some rec → rec.anum = i + 1)
    ∧ (∀ i rec e, tr.get? i = some rec → rec.res = CallResult.exn e →
        notFoundMsg (pyLower e.msg) = false → rateMsg (pyLower e.msg) = true →
        rec.slept = some (min ((2 : Rat) ^ (i + 1)) 8)
          ∧ (i + 1 < maxA → i + 1 < tr.length)) := by
  obtain ⟨⟨last2, htr⟩, _⟩ := modelLoop_mem oracle maxA _ none m tr hmem
  refine ⟨?_, ?_, ?_⟩
  · rw [htr]
    exact attemptLoop_length_le oracle m maxA 1 last2
  · intro i rec hrec
    rw [htr] at hrec
    rw [attemptLoop_get? oracle m maxA 1 last2 i rec hrec]
    show 1 + i = i + 1
    omega
  · intro i rec e hrec hres h1 h2
    rw [htr] at hrec
    have hshape := attemptLoop_get? oracle m maxA 1 last2 i rec hrec
    have hor : oracle m (1 + i) = CallResult.exn e := by
      rw [hshape] at hres
      exact hres
    constructor
    · rw [hshape]
      simp only [sleptFor, hor, h1, h2]
      rw [Nat.add_comm 1 i]
      simp [h1, h2]
    · intro hbud
      rcases List.get?_eq_some.1 hrec with ⟨hl, _⟩
      rw [htr]
      refine attemptLoop_continue oracle m maxA 1 last2 i hl ?_ hbud
      rw [hor]
      simp [isContinueB, h1, h2]

/-- Witness for C7: a provider always rate-limited spends exactly two
attempts on each of two models, sleeping 2 then 4 time units. -/
theorem rate_limit_backoff_and_budget_witness :
    (("a"), [Attempt.mk 1 (CallResult.exn
          (Exc.mk ("ClientError") ("429 rate limit"))) (some 2),
        Attempt.mk 2 (CallResult.exn
          (Exc.mk ("ClientError") ("429 rate limit"))) (some 4)])
      ∈ (callGeminiWithFallback (some oracleRate) [] ("p")
          (some [("a"), ("b")]) false 2).1
    ∧ ([Attempt.mk 1 (CallResult.exn
          (Exc.mk ("ClientError") ("429 rate limit"))) (some 2),
        Attempt.mk 2 (CallResult.exn
          (Exc.mk ("ClientError") ("429 rate limit"))) (some 4)].length ≤ 2)
    ∧ (Attempt.mk 1 (CallResult.exn
        (Exc.mk ("ClientError") ("429 rate limit"))) (some 2)).slept
      = some (min ((2 : Rat) ^ (0 + 1)) 8) := by
  have hrun : (callGeminiWithFallback (some oracleRate) [] ("p")
      (some [("a"), ("b")]) false 2).1
      = [(("a"), [Attempt.mk 1 (CallResult.exn
            (Exc.mk ("ClientError") ("429 rate limit"))) (some 2),
          Attempt.mk 2 (CallResult.exn
            (Exc.mk ("ClientError") ("429 rate limit"))) (some 4)]),
        (("b"), [Attempt.mk 1 (CallResult.exn
            (Exc.mk ("ClientError") ("429 rate limit"))) (some 2),
          Attempt.mk 2 (CallResult.exn
            (Exc.mk ("ClientError") ("429 rate limit"))) (some 4)])] := by rfl
  have hmem : (("a"), [Attempt.mk 1 (CallResult.exn
        (Exc.mk ("ClientError") ("429 rate limit"))) (some 2),
      Attempt.mk 2 (CallResult.exn
        (Exc.mk ("ClientError") ("429 rate limit"))) (some 4)])
      ∈ (callGeminiWithFallback (some oracleRate) [] ("p")
          (some [("a"), ("b")]) false 2).1 := by
    rw [hrun]
    exact List.mem_cons_self _ _
  have h := rate_limit_backoff_and_budget oracleRate [] ("p")
    (some [("a"), ("b")]) false 2 ("a") _ hmem
  refine ⟨hmem, h.1, ?_⟩
  exact (h.2.2 0 _ (Exc.mk ("ClientError") ("429 rate limit"))
    (by rfl) (by rfl) (by decide) (by decide)).1

/-! ### Claim C6: exhausting all candidates returns an error string -/

/-- When no call ever succeeds, the inner loop either returns nothing
or returns the fatal-TypeError string for its model. -/
theorem attemptLoop_all_fail (oracle : Oracle) (m : String)
    (hfail : ∀ k, ∃ e, oracle m k = CallResult.exn e) :
    ∀ (fuel a : Nat) (last : Option Exc),
      (attemptLoop oracle m fuel a last).2.2 = none
        ∨ ∃ e, (attemptLoop oracle m fuel a last).2.2
            = some (typeErrorText m e) := by
  intro fuel
  induction fuel with
  | zero => intro a last; exact Or.inl rfl
  | succ fuel ih =>
    intro a last
    obtain ⟨e, he⟩ := hfail a
    by_cases h1 : notFoundMsg (pyLower e.msg) = true
    · simp [attemptLoop, he, h1]
    · by_cases h2 : rateMsg (pyLower e.msg) = true
      · have hred : (attemptLoop oracle m (fuel + 1) a last).2.2
            = (attemptLoop oracle m fuel (a + 1) (some e)).2.2 := by
          simp [attemptLoop, he, h1, h2]
        rw [hred]
        exact ih (a + 1) (some e)
      · by_cases h3 : e.cls = ("TypeError")
        · exact Or.inr ⟨e, by simp [attemptLoop, he, h1, h2, h3]⟩
        · have hred : (attemptLoop oracle m (fuel + 1) a last).2.2
              = (attemptLoop oracle m fuel (a + 1) (some e)).2.2 := by
            simp [attemptLoop, he, h1, h2, h3]
          rw [hred]
          exact ih (a + 1) (some e)

/-- C6.  If every invocation attempt fails (the oracle never returns a
text), the orchestrator returns as a normal value a formatted error
string: either the all-models-exhausted summary of the last observed
failure, or the fatal-TypeError string naming the failing model.  The
embedding is a total function, so no exception reaches the caller. -/
theorem all_attempts_fail_returns_error_string (oracle : Oracle)
    (hfail : ∀ m k, ∃ e, oracle m k = CallResult.exn e)
    (preferred : List String) (prompt : String) (models : Option (List String))
    (sr : Bool) (maxA : Nat) :
    (∃ le, (callGeminiWithFallback (some oracle) preferred prompt
        models sr maxA).2.2 = allFailedText le)
    ∨ (∃ m e, (callGeminiWithFallback (some oracle) preferred prompt
        models sr maxA).2.2 = typeErrorText m e) := by
  suffices h : ∀ (ms : List String) (last : Option Exc),
      (∃ le, (modelLoop oracle maxA ms last).2.2 = allFailedText le)
      ∨ (∃ m e, (modelLoop oracle maxA ms last).2.2 = typeErrorText m e) by
    exact h _ none
  intro ms
  induction ms with
  | nil => intro last; exact Or.inl ⟨last, rfl⟩
  | cons m rest ih =>
    intro last
    by_cases hm : m.data.isEmpty = true
    · rw [modelLoop, if_pos hm]
      exact ih last
    · rw [modelLoop, if_neg hm]
      rcases attemptLoop_all_fail oracle m (hfail m) maxA 1 last with h | ⟨e, he⟩
      · simp only [h]
        exact ih ((attemptLoop oracle m maxA 1 last).2.1)
      · simp only [he]
        exact Or.inr ⟨m, e, rfl⟩

/-- Witness for C6: with an always-rate-limited provider the run
returns the all-failed summary of the last exception, never raising. -/
theorem all_attempts_fail_returns_error_string_witness :
    (callGeminiWithFallback (some oracleRate) [] ("p")
        (some [("a"), ("b")]) false 2).2.2
      = allFailedText (some (Exc.mk ("ClientError") ("429 rate limit")))
    ∧ ((∃ le, (callGeminiWithFallback (some oracleRate) [] ("p")
          (some [("a"), ("b")]) false 2).2.2 = allFailedText le)
      ∨ (∃ m e, (callGeminiWithFallback (some oracleRate) [] ("p")
          (some [("a"), ("b")]) false 2).2.2 = typeErrorText m e)) := by
  constructor
  · rfl
  · exact all_attempts_fail_returns_error_string oracleRate
      (fun m k => ⟨Exc.mk ("ClientError") ("429 rate limit"), rfl⟩)
      [] ("p") (some [("a"), ("b")]) false 2

/-! ### Helper lemmas about fence stripping on backtick-free text -/

/-- The fence regex cannot match at a non-backtick character. -/
theorem fenceMatch_none_of_ne {c : Char} (hc : c ≠ btick) :
    ∀ t : List Char, fenceMatch (c :: t) = none := by
  intro t
  cases t with
  | nil => rfl
  | cons y t2 =>
    cases t2 with
    | nil => rfl
    | cons z t3 => simp [fenceMatch, hc]

/-- The fence substitution passes over a backtick-free prefix
untouched. -/
theorem fenceSubF_append_no_btick :
    ∀ (l r : List Char) (fuel : Nat), (∀ c ∈ l, c ≠ btick) →
      fenceSubF (l.length + fuel) (l ++ r) = l ++ fenceSubF fuel r := by
  intro l
  induction l with
  | nil => intro r fuel _; simp
  | cons c cs ih =>
    intro r fuel hbt
    have hc : c ≠ btick := hbt c (List.mem_cons_self c cs)
    have hfm := fenceMatch_none_of_ne hc (cs ++ r)
    have hlen : (c :: cs).length + fuel = (cs.length + fuel) + 1 := by
      simp only [List.length_cons]
      omega
    rw [hlen]
    show (match fenceMatch (c :: (cs ++ r)) with
      | some rest => fenceSubF (cs.length + fuel) rest
      | none => c :: fenceSubF (cs.length + fuel) (cs ++ r)) = (c :: cs) ++ fenceSubF fuel r
    rw [hfm]
    rw [ih r fuel (fun x hx => hbt x (List.mem_cons_of_mem c hx))]
    rfl

/-- Deleting a backtick-headed pattern passes over a backtick-free
prefix untouched. -/
theorem deleteAllF_append_no_btick (pat' : List Char) :
    ∀ (l r : List Char) (fuel : Nat), (∀ c ∈ l, c ≠ btick) →
      deleteAllF (btick :: pat') (l.length + fuel) (l ++ r)
        = l ++ deleteAllF (btick :: pat') fuel r := by
  intro l
  induction l with
  | nil => intro r fuel _; simp
  | cons c cs ih =>
    intro r fuel hbt
    have hc : c ≠ btick := hbt c (List.mem_cons_self c cs)
    have hpre : isPrefixL (btick :: pat') (c :: (cs ++ r)) = false := by
      simp [isPrefixL]
      intro h
      exact absurd h.symm hc
    have hlen : (c :: cs).length + fuel = (cs.length + fuel) + 1 := by
      simp only [List.length_cons]
      omega
    rw [hlen]
    show (if !(btick :: pat').isEmpty && isPrefixL (btick :: pat') (c :: (cs ++ r))
        then deleteAllF (btick :: pat') (cs.length + fuel)
          ((c :: (cs ++ r)).drop (btick :: pat').length)
        else c :: deleteAllF (btick :: pat') (cs.length + fuel) (cs ++ r))
      = (c :: cs) ++ deleteAllF (btick :: pat') fuel r
    rw [hpre]
    simp only [Bool.and_false, if_false]
    rw [ih r fuel (fun x hx => hbt x (List.mem_cons_of_mem c hx))]
    rfl

/-- On backtick-free text, `_strip_markdown_fences` is exactly
`str.strip()`. -/
theorem stripMarkdownFences_no_btick (s : String)
    (hbt : ∀ c ∈ s.data, c ≠ btick) :
    stripMarkdownFences s = pyStrip s := by
  unfold stripMarkdownFences fenceSubL deleteAllL
  have h1 : fenceSubF s.data.length s.data = s.data := by
    have := fenceSubF_append_no_btick s.data [] 0 hbt
    simpa [fenceSubF] using this
  rw [h1]
  have h2 : deleteAllF [btick, btick, btick] s.data.length s.data = s.data := by
    have := deleteAllF_append_no_btick [btick, btick] s.data [] 0 hbt
    simpa [deleteAllF] using this
  rw [h2]
  have h3 : deleteAllF [btick] s.data.length s.data = s.data := by
    have := deleteAllF_append_no_btick [] s.data [] 0 hbt
    simpa [deleteAllF] using this
  rw [h3]

/-- `str.strip()` ignores a trailing newline. -/
theorem pyStripL_append_newline (l : List Char) :
    pyStripL (l ++ ['\n']) = pyStripL l := by
  unfold pyStripL
  rw [List.dropWhile_append]
  by_cases hnil : (l.dropWhile pyWs).isEmpty = true
  · rw [if_pos hnil]
    have hl : l.dropWhile pyWs = [] := by simpa [List.isEmpty_iff] using hnil
    rw [hl]
    have : List.dropWhile pyWs ['\n'] = [] := by decide
    rw [this]
  · rw [if_neg hnil]
    rw [List.reverse_append]
    have : List.reverse ['\n'] = ['\n'] := by decide
    rw [this]
    have hdw : List.dropWhile pyWs ('\n' :: (l.dropWhile pyWs).reverse)
        = List.dropWhile pyWs (l.dropWhile pyWs).reverse := by
      rw [List.dropWhile_cons]
      have : pyWs '\n' = true := by decide
      rw [this]
      simp
    rw [List.singleton_append, hdw]

/-- Stripping the fenced wrapping of backtick-free text yields the
stripped text itself: the opening fence matches the fence regex and the
dangling closing fence falls to the backtick removals. -/
theorem stripMarkdownFences_fenced (s : String)
    (hbt : ∀ c ∈ s.data, c ≠ btick) :
    stripMarkdownFences (("```json\n" ++ s) ++ "\n```") = pyStrip s := by
  have hdata : (("```json\n" ++ s) ++ "\n```").data
      = [btick, btick, btick, 'j', 's', 'o', 'n', '\n']
        ++ (s.data ++ ['\n', btick, btick, btick]) := by
    have h0 : (("```json\n" ++ s) ++ "\n```").data
        = ("```json\n").data ++ s.data ++ ("\n```").data := rfl
    have h8 : ("```json\n").data = [btick, btick, btick, 'j', 's', 'o', 'n', '\n'] := by
      decide
    have h4 : ("\n```").data = ['\n', btick, btick, btick] := by decide
    rw [h0, h8, h4, List.append_assoc]
  have hdw : ∀ X : List Char,
      List.dropWhile fenceLangChar ('j' :: 's' :: 'o' :: 'n' :: '\n' :: X)
        = '\n' :: X := by
    intro X
    have hj : fenceLangChar 'j' = true := by decide
    have hs : fenceLangChar 's' = true := by decide
    have ho : fenceLangChar 'o' = true := by decide
    have hn : fenceLangChar 'n' = true := by decide
    have hnl : fenceLangChar '\n' = false := by decide
    simp [List.dropWhile_cons, hj, hs, ho, hn, hnl]
  have hfm : ∀ X : List Char,
      fenceMatch (btick :: btick :: btick :: 'j' :: 's' :: 'o' :: 'n' :: '\n' :: X)
        = some X := by
    intro X
    simp [fenceMatch, hdw X]
  have hfsub : fenceSubL ((("```json\n" ++ s) ++ "\n```").data)
      = s.data ++ ['\n', btick, btick, btick] := by
    unfold fenceSubL
    rw [hdata]
    have hlen : ([btick, btick, btick, 'j', 's', 'o', 'n', '\n']
        ++ (s.data ++ ['\n', btick, btick, btick])).length
        = (s.data.length + 11) + 1 := by
      simp

    rw [hlen]
    show (match fenceMatch (btick :: btick :: btick :: 'j' :: 's' :: 'o' :: 'n'
        :: '\n' :: (s.data ++ ['\n', btick, btick, btick])) with
      | some rest => fenceSubF (s.data.length + 11) rest
      | none => btick :: fenceSubF (s.data.length + 11)
          ([btick, btick, 'j', 's', 'o', 'n', '\n']
            ++ (s.data ++ ['\n', btick, btick, btick])))
      = s.data ++ ['\n', btick, btick, btick]
    rw [hfm]
    show fenceSubF (s.data.length + 11) (s.data ++ ['\n', btick, btick, btick])
      = s.data ++ ['\n', btick, btick, btick]
    rw [fenceSubF_append_no_btick s.data ['\n', btick, btick, btick] 11 hbt]
    have htail : fenceSubF 11 ['\n', btick, btick, btick]
        = ['\n', btick, btick, btick] := by decide
    rw [htail]
  unfold stripMarkdownFences
  rw [hfsub]
  unfold deleteAllL
  have hlen3 : (s.data ++ ['\n', btick, btick, btick]).length = s.data.length + 4 := by
    simp
  rw [hlen3]
  rw [deleteAllF_append_no_btick [btick, btick] s.data ['\n', btick, btick, btick] 4 hbt]
  have htail3 : deleteAllF [btick, btick, btick] 4 ['\n', btick, btick, btick]
      = ['\n'] := by decide
  rw [htail3]
  have hlen1 : (s.data ++ ['\n']).length = s.data.length + 1 := by simp
  rw [hlen1]
  rw [deleteAllF_append_no_btick [] s.data ['\n'] 1 hbt]
  have htail1 : deleteAllF [btick] 1 ['\n'] = ['\n'] := by decide
  rw [htail1]
  show pyStrip (String.mk (s.data ++ ['\n'])) = pyStrip s
  unfold pyStrip
  exact congrArg String.mk (pyStripL_append_newline s.data)

/-! ### Claim C5: round-tripping JSON through the extractor -/

/-- C5 counterexample.  A valid JSON string containing backticks inside
a string literal is damaged by `_strip_markdown_fences` (it deletes
every backtick, even inside JSON strings): the extractor parses the
mutilated text to a different logical object than parsing the input
directly. -/
theorem fenced_roundtrip_counterexample :
    loads ("\x7b\"a\": \"\x60x\x60\"\x7d")
        = some (J.obj [("a", J.str ("\x60x\x60"))])
    ∧ (extract_json_from_text ("\x7b\"a\": \"\x60x\x60\"\x7d")).1
        = some (J.obj [("a", J.str ("x"))])
    ∧ J.obj [("a", J.str ("x"))] ≠ J.obj [("a", J.str ("\x60x\x60"))] := by
  refine ⟨by rfl, by rfl, ?_⟩
  intro h
  simp only [J.obj.injEq, List.cons.injEq, Prod.mk.injEq, J.str.injEq] at h
  exact absurd h.1.2 (by decide)

/-- C5 amended.  For every backtick-free string whose fence-stripped
form — which for such a string is exactly its whitespace-trimmed form —
parses as JSON, the extractor returns exactly that parsed object, both
on the plain string and on the string wrapped in ```` ```json ````
fences; in particular the concrete fenced scenario extracts to
`{"issues": []}`. -/
theorem fenced_roundtrip_amended (s : String)
    (hbt : ∀ c ∈ s.data, c ≠ btick) (v : J)
    (hv : loads (stripMarkdownFences s) = some v) :
    stripMarkdownFences s = pyStrip s
    ∧ (extract_json_from_text s).1 = some v
    ∧ (extract_json_from_text (("```json\n" ++ s) ++ "\n```")).1 = some v := by
  have hplain := stripMarkdownFences_no_btick s hbt
  have hfence := stripMarkdownFences_fenced s hbt
  refine ⟨hplain, ?_, ?_⟩
  · unfold extract_json_from_text
    simp only [hv]
  · unfold extract_json_from_text
    rw [hfence, ← hplain]
    simp only [hv]

/-- Witness for the amended C5 at the specification's scenario: the
fenced text ```` ```json\n{"issues": []}\n``` ```` extracts to the
object `{"issues": []}`. -/
theorem fenced_roundtrip_amended_witness :
    loads (stripMarkdownFences ("\x7b\"issues\": []\x7d"))
        = some (J.obj [("issues", J.arr [])])
    ∧ (extract_json_from_text ("\x7b\"issues\": []\x7d")).1
        = some (J.obj [("issues", J.arr [])])
    ∧ (extract_json_from_text ("```json\n\x7b\"issues\": []\x7d\n```")).1
        = some (J.obj [("issues", J.arr [])]) := by
  have h := fenced_roundtrip_amended ("\x7b\"issues\": []\x7d")
    (by decide) (J.obj [("issues", J.arr [])]) (by rfl)
  refine ⟨by rfl, h.2.1, ?_⟩
  have heq : (("```json\n" ++ ("\x7b\"issues\": []\x7d")) ++ "\n```")
      = "```json\n\x7b\"issues\": []\x7d\n```" := by rfl
  rw [← heq]
  exact h.2.2
